import Mathlib

/-!
Verification of the weather-dashboard core described in `spec.md`.

The repository ships only its end-to-end verification suite; the
application core (provider normalization, cache, aggregator, search and
city-list controllers, settings store) is therefore embedded here from
the specification's contracts, with the suite's concrete fixtures
(mocked payloads, injected storage, expected display strings) used as
the concrete test points of the theorems.
-/

namespace WeatherApp

variable {α : Type}

/-! ## Definitions: time formatting (presentation layer) -/

/-- Modelled from the spec: the `timeFormat` setting, one of the
enumerated set 12h / 24h. The rendering layer is absent from the
repository; the verification suite drives it through
`settings.timeFormat`. -/
inductive TimeFormat where
  | h12 : TimeFormat
  | h24 : TimeFormat
deriving DecidableEq

/-- Left-pad a numeral to two digits, as in clock displays. -/
def pad2 (n : Nat) : String :=
  if n < 10 then "0" ++ toString n else toString n

/-- Hour-of-day (0..23) of a UTC epoch-seconds timestamp. -/
def hourOfEpoch (e : Nat) : Nat := e / 3600 % 24

/-- Minute-of-hour (0..59) of a UTC epoch-seconds timestamp. -/
def minuteOfEpoch (e : Nat) : Nat := e % 3600 / 60

/-- Modelled from the spec: display formatting of a stored epoch
timestamp is a pure presentation-layer function applied at read time.
The 24h form is zero-padded `HH:MM`; the 12h form is `H:MM AM/PM` with
hour 0 rendered as 12. The concrete outputs are fixed by the suite's
time-format checks. -/
def formatTime : TimeFormat → Nat → String
  | TimeFormat.h24, e => pad2 (hourOfEpoch e) ++ ":" ++ pad2 (minuteOfEpoch e)
  | TimeFormat.h12, e =>
      let h := hourOfEpoch e
      let htwelve := if h % 12 = 0 then 12 else h % 12
      let marker := if h < 12 then " AM" else " PM"
      toString htwelve ++ ":" ++ pad2 (minuteOfEpoch e) ++ marker

/-- The sun block of `NormalizedWeather`: sunrise and sunset stored as
UTC epoch seconds. -/
structure SunTimes where
  sunriseEpoch : Nat
  sunsetEpoch : Nat
deriving DecidableEq

/-- Render both sun timestamps under a time format. -/
def displaySun (fmt : TimeFormat) (s : SunTimes) : String × String :=
  (formatTime fmt s.sunriseEpoch, formatTime fmt s.sunsetEpoch)

/-- Reading the sun block for display: yields the rendered strings
together with the stored model, which the read leaves untouched. -/
def readSun (fmt : TimeFormat) (s : SunTimes) : (String × String) × SunTimes :=
  (displaySun fmt s, s)

/-- The suite's fixture: 2023-10-27 (UTC, day origin 1698364800) with
sunrise 06:15 and sunset 18:45, as epoch seconds. -/
def fixtureSun : SunTimes :=
  { sunriseEpoch := 1698387300, sunsetEpoch := 1698432300 }

/-! ## Definitions: temperature rounding (presentation layer) -/

/-- Modelled from the spec: nearest-integer rounding with halves rounded
up, as the UI's temperature display applies to the stored Celsius
value. -/
def roundHalfUp (t : ℚ) : ℤ := ⌊t + 1 / 2⌋

/-- Modelled from the spec: the card's temperature label, the rounded
stored Celsius value followed by a degree sign. -/
def displayTemp (t : ℚ) : String := toString (roundHalfUp t) ++ "°"

/-! ## Definitions: CityListController drag reorder -/

/-- Modelled from the spec: CityListController drag-to-target. Dropping
the card at position `i` onto the card at position `j` removes it from
position `i` and re-inserts it at `j`, the dropped-on card's former
position; an invalid source index leaves the list unchanged. -/
def dragOnto (l : List α) (i j : Nat) : List α :=
  match l[i]? with
  | some a => (l.eraseIdx i).insertIdx j a
  | none => l

/-! ## Definitions: saved-city list and `reorder` -/

/-- A saved location as persisted by CityListController: unique `id`,
display name, and the `sortIndex` that defines the dense ordering. -/
structure SavedLocation where
  id : Nat
  displayName : String
  sortIndex : Nat
deriving DecidableEq

/-- Reassign `sortIndex` values consecutively starting at `k`, in list
order; `renumberFrom 0` restores the dense `0..N-1` numbering after a
mutation. -/
def renumberFrom : Nat → List SavedLocation → List SavedLocation
  | _, [] => []
  | k, c :: rest => { c with sortIndex := k } :: renumberFrom (k + 1) rest

/-- Modelled from the spec: `reorder(id, newIndex)` moves the entry with
the given id to `newIndex` (clamped to `[0, N-1]`), shifting intervening
entries by one, and renumbers `sortIndex` densely; an unknown id leaves
the list unchanged. The stored list is kept in `sortIndex` order. -/
def reorder (s : List SavedLocation) (cid newIdx : Nat) : List SavedLocation :=
  if h : s.findIdx (fun c => c.id == cid) < s.length then
    renumberFrom 0 ((s.eraseIdx (s.findIdx fun c => c.id == cid)).insertIdx
      (min newIdx (s.length - 1)) (s.get ⟨s.findIdx fun c => c.id == cid, h⟩))
  else s

/-- Apply a finite sequence of `reorder(id, newIndex)` calls. -/
def applyReorders (s : List SavedLocation) (calls : List (Nat × Nat)) : List SavedLocation :=
  calls.foldl (fun acc c => reorder acc c.1 c.2) s

/-- The reorder invariant: the stored `sortIndex` values are a dense,
contiguous permutation of `0..N-1`. -/
def denseIndexes (s : List SavedLocation) : Prop :=
  List.Perm (s.map fun c => c.sortIndex) (List.range s.length)

instance (s : List SavedLocation) : Decidable (denseIndexes s) := by
  unfold denseIndexes; infer_instance

/-! ## Definitions: SearchController keyboard navigation -/

/-- The suggestion-list selection state: how many suggestions are
visible and which one, if any, is highlighted. -/
structure SearchState where
  count : Nat
  highlighted : Option Nat
deriving DecidableEq

/-- Modelled from the spec: `ArrowDown` advances the highlighted index
by 1, clamped to `[0, count-1]` with wraparound disabled; with nothing
highlighted yet it highlights the first suggestion (the behaviour the
suite's first keypress checks). -/
def arrowDown (s : SearchState) : SearchState :=
  if s.count = 0 then s
  else
    match s.highlighted with
    | none => { s with highlighted := some 0 }
    | some i => { s with highlighted := some (min (i + 1) (s.count - 1)) }

/-- Modelled from the spec: `ArrowUp` decreases the highlighted index by
1, clamped at 0 with wraparound disabled. -/
def arrowUp (s : SearchState) : SearchState :=
  match s.highlighted with
  | none => s
  | some i => { s with highlighted := some (i - 1) }

/-- The per-suggestion highlighted/selected flag (`aria-selected` in the
suite): suggestion `k` carries it iff `k` is the highlighted index. -/
def isHighlighted (s : SearchState) (k : Nat) : Bool :=
  s.highlighted == some k

/-! ## Definitions: errors, payloads, single-flight aggregator -/

/-- The `WeatherFetchError` kinds of the spec's error taxonomy. -/
inductive FetchErrorKind where
  | network : FetchErrorKind
  | timeout : FetchErrorKind
  | unauthorized : FetchErrorKind
  | rateLimited : FetchErrorKind
deriving DecidableEq

/-- A `WeatherFetchError` value, carrying its kind. -/
structure FetchError where
  kind : FetchErrorKind
deriving DecidableEq

/-- The normalized payload a fetch resolves to, abstracted to its
identity; the claims under proof depend only on which payload flows
where, not on its fields. -/
abbrev Payload := Int

/-- The aggregator's in-flight table: for each key (a provider /
locationKey pair encoded as a string) the number of callers awaiting
the one outstanding fetch, plus the running count of network fetches
issued. -/
structure FlightTable where
  waiting : List (String × Nat)
  fetches : Nat
deriving DecidableEq

/-- Modelled from the spec: a `getWeather` call arriving for `k`. If a
fetch for `k` is already in flight the caller joins its waiters and no
new fetch is issued; otherwise a fetch is issued and the caller becomes
its first waiter. -/
def flightCall (st : FlightTable) (k : String) : FlightTable :=
  if (st.waiting.find? fun p => p.1 == k).isSome then
    { st with waiting := st.waiting.map fun p => if p.1 == k then (p.1, p.2 + 1) else p }
  else
    { waiting := (k, 1) :: st.waiting, fetches := st.fetches + 1 }

/-- Number of callers currently awaiting the in-flight fetch for `k`. -/
def waitersFor (st : FlightTable) (k : String) : Nat :=
  match st.waiting.find? fun p => p.1 == k with
  | some p => p.2
  | none => 0

/-- Modelled from the spec: the in-flight fetch for `k` settles with
outcome `r` (resolved payload or failure); every waiter for `k` receives
that same outcome and the flight is cleared. -/
def flightComplete (st : FlightTable) (k : String) (r : Except FetchError Payload) :
    FlightTable × List (Except FetchError Payload) :=
  ({ waiting := st.waiting.filter fun p => p.1 != k, fetches := st.fetches },
   List.replicate (waitersFor st k) r)

/-! ## Definitions: cache freshness and aggregator fallback -/

/-- The cache entry for a `(provider, locationKey)` key: the normalized
payload and the epoch at which it was fetched. -/
structure CacheEntry where
  payload : Payload
  fetchedAtEpoch : Nat
deriving DecidableEq

/-- Modelled from the spec: an entry is fresh iff
`now - fetchedAtEpoch < autoRefreshIntervalMinutes * 60`; an interval of
0 means always stale. -/
def fresh (intervalMinutes now fetchedAt : Nat) : Bool :=
  now - fetchedAt < intervalMinutes * 60

/-- What one `getWeather` call produces: the result delivered to the
caller (payload with its stale-warning flag, or a propagated error),
the cache entry for the key afterwards, and whether a network fetch was
issued. -/
structure FetchOutcome where
  result : Except FetchError (Payload × Bool)
  cache : Option CacheEntry
  didFetch : Bool

/-- Modelled from the spec: `getWeather` for one key. On a fresh cache
hit, return it with no fetch. Otherwise fetch: on success write-through
to the cache and return the new payload; on failure return the stale
entry flagged as stale when one exists, else propagate the error. The
network's answer is passed in as `fetchResult`. -/
def getWeather (intervalMinutes : Nat) (cache : Option CacheEntry) (now : Nat)
    (fetchResult : Except FetchError Payload) : FetchOutcome :=
  match cache with
  | some e =>
      if fresh intervalMinutes now e.fetchedAtEpoch then
        ⟨Except.ok (e.payload, false), some e, false⟩
      else
        match fetchResult with
        | Except.ok p => ⟨Except.ok (p, false), some ⟨p, now⟩, true⟩
        | Except.error _ => ⟨Except.ok (e.payload, true), some e, true⟩
  | none =>
      match fetchResult with
      | Except.ok p => ⟨Except.ok (p, false), some ⟨p, now⟩, true⟩
      | Except.error err => ⟨Except.error err, none, true⟩

/-- 1 if the call issued a network fetch, else 0. -/
def fetchCount (o : FetchOutcome) : Nat := if o.didFetch then 1 else 0

/-! ## Definitions: settings section reorder (move up / move down) -/

/-- Swap the adjacent entries at positions `i` and `i+1`; out-of-range
positions leave the list unchanged. -/
def swapAdj (l : List String) (i : Nat) : List String :=
  match l[i]?, l[i + 1]? with
  | some a, some b => (l.set i b).set (i + 1) a
  | _, _ => l

/-- Modelled from the spec: the settings "move up" control on the
section at position `i` of `detailViewSectionOrder`; the first section
cannot move further up. -/
def moveUp (l : List String) (i : Nat) : List String :=
  if i = 0 then l else swapAdj l (i - 1)

/-- Modelled from the spec: the settings "move down" control on the
section at position `i`; the last section cannot move down. -/
def moveDown (l : List String) (i : Nat) : List String :=
  swapAdj l i

/-- The "move up" control is rendered disabled exactly on the first
position. -/
def upDisabled (i : Nat) : Bool := i == 0

/-- The "move down" control is rendered disabled exactly on the last
position of the section list. -/
def downDisabled (l : List String) (i : Nat) : Bool := i + 1 == l.length

/-! ## Definitions: persisted savedCities loader -/

/-- A persisted `savedCities` entry as found in storage: either the
legacy bare city-name string or a full location object. -/
inductive SavedCityRaw where
  | legacyName : String → SavedCityRaw
  | full : String → String → ℚ → ℚ → SavedCityRaw
deriving DecidableEq

/-- How the weather fetch for a loaded city is addressed: by city name
(legacy entries, resolved through the active provider) or by
coordinates. -/
inductive FetchKey where
  | byName : String → FetchKey
  | byCoords : ℚ → ℚ → FetchKey
deriving DecidableEq

/-- A city as loaded into the app: display name, provider source, and
the key its weather is fetched under. -/
structure LoadedCity where
  name : String
  source : String
  key : FetchKey
deriving DecidableEq

/-- Modelled from the spec: loading one persisted `savedCities` entry.
The suite injects both shapes and expects both to load: a bare string
becomes a city resolved by name through the active provider, a full
object keeps its own source and coordinates. -/
def loadEntry (activeSource : String) : SavedCityRaw → Option LoadedCity
  | SavedCityRaw.legacyName n => some ⟨n, activeSource, FetchKey.byName n⟩
  | SavedCityRaw.full n src la lo => some ⟨n, src, FetchKey.byCoords la lo⟩

/-- Load the whole persisted `savedCities` list, dropping entries whose
load fails (none do). -/
def loadSavedCities (activeSource : String) (raws : List SavedCityRaw) : List LoadedCity :=
  raws.filterMap (loadEntry activeSource)

/-! ## Helper lemmas -/

theorem getElem?_insertIdx_lt (xs : List α) (x : α) (n k : Nat) (h : k < n) :
    (xs.insertIdx n x)[k]? = xs[k]? := by
  rcases le_or_lt n xs.length with hn | hn
  · have hk : k < xs.length := Nat.lt_of_lt_of_le h hn
    have hk2 : k < (xs.insertIdx n x).length := by
      rw [List.length_insertIdx _ _ hn]; omega
    rw [List.getElem?_eq_getElem hk, List.getElem?_eq_getElem hk2]
    exact congrArg some (List.getElem_insertIdx_of_lt xs x n k h hk)
  · rw [List.insertIdx_of_length_lt xs x n hn]

theorem getElem?_insertIdx_self (xs : List α) (x : α) (n : Nat) (h : n ≤ xs.length) :
    (xs.insertIdx n x)[n]? = some x := by
  have hn2 : n < (xs.insertIdx n x).length := by
    rw [List.length_insertIdx _ _ h]; omega
  rw [List.getElem?_eq_getElem hn2]
  exact congrArg some (List.getElem_insertIdx_self xs x n h)

theorem getElem?_insertIdx_add_succ (xs : List α) (x : α) (n k : Nat) (h : n ≤ xs.length) :
    (xs.insertIdx n x)[n + k + 1]? = xs[n + k]? := by
  rcases Nat.lt_or_ge (n + k) xs.length with hlt | hge
  · have hb : n + k + 1 < (xs.insertIdx n x).length := by
      rw [List.length_insertIdx _ _ h]; omega
    rw [List.getElem?_eq_getElem hlt, List.getElem?_eq_getElem hb]
    exact congrArg some (List.getElem_insertIdx_add_succ xs x n k hlt)
  · rw [List.getElem?_eq_none hge, List.getElem?_eq_none]
    rw [List.length_insertIdx _ _ h]; omega

theorem insertIdx_perm_cons (x : α) :
    ∀ (n : Nat) (xs : List α), n ≤ xs.length → List.Perm (xs.insertIdx n x) (x :: xs)
  | 0, xs, _ => List.Perm.refl _
  | n + 1, [], h => absurd h (by simp)
  | n + 1, y :: xs, h => by
      rw [List.insertIdx_succ_cons]
      exact (List.Perm.cons y (insertIdx_perm_cons x n xs (Nat.le_of_succ_le_succ h))).trans
        (List.Perm.swap x y xs)

theorem perm_cons_eraseIdx :
    ∀ (l : List α) (i : Nat) (h : i < l.length), List.Perm l (l[i] :: l.eraseIdx i)
  | x :: xs, 0, _ => List.Perm.refl _
  | x :: xs, i + 1, h => by
      have hix : i < xs.length := by simpa using h
      have ih := perm_cons_eraseIdx xs i hix
      simp only [List.getElem_cons_succ, List.eraseIdx_cons_succ]
      exact (List.Perm.cons x ih).trans (List.Perm.swap (xs[i]) x (xs.eraseIdx i))

theorem map_sortIndex_renumberFrom :
    ∀ (l : List SavedLocation) (k : Nat),
      (renumberFrom k l).map (fun c => c.sortIndex) = List.range' k l.length
  | [], _ => rfl
  | c :: rest, k => by
      simp only [renumberFrom, List.map_cons, List.length_cons, List.range'_succ]
      exact congrArg _ (map_sortIndex_renumberFrom rest (k + 1))

theorem length_renumberFrom :
    ∀ (l : List SavedLocation) (k : Nat), (renumberFrom k l).length = l.length
  | [], _ => rfl
  | _ :: rest, k => congrArg Nat.succ (length_renumberFrom rest (k + 1))

theorem reorder_dense (s : List SavedLocation) (cid newIdx : Nat)
    (hd : denseIndexes s) : denseIndexes (reorder s cid newIdx) := by
  unfold reorder
  split
  · rename_i h
    set i := s.findIdx fun c => c.id == cid with hi
    have hel : (s.eraseIdx i).length = s.length - 1 := List.length_eraseIdx_of_lt h
    have hmin : min newIdx (s.length - 1) ≤ (s.eraseIdx i).length := by rw [hel]; omega
    have hml : ((s.eraseIdx i).insertIdx (min newIdx (s.length - 1))
        (s.get ⟨i, h⟩)).length = s.length := by
      rw [List.length_insertIdx _ _ hmin, hel]; omega
    unfold denseIndexes
    rw [map_sortIndex_renumberFrom, length_renumberFrom, hml]
    rw [List.range_eq_range']
  · exact hd

theorem foldl_flightCall_joins (k : String) :
    ∀ (n m f : Nat),
      (List.replicate n k).foldl flightCall ⟨[(k, m)], f⟩ = ⟨[(k, m + n)], f⟩
  | 0, m, f => rfl
  | n + 1, m, f => by
      rw [List.replicate_succ, List.foldl_cons]
      have hstep : flightCall ⟨[(k, m)], f⟩ k = ⟨[(k, m + 1)], f⟩ := by
        simp [flightCall]
      rw [hstep, foldl_flightCall_joins k n (m + 1) f]
      simp [Nat.add_assoc, Nat.add_comm 1 n]

theorem swapAdj_length (l : List String) (i : Nat) : (swapAdj l i).length = l.length := by
  unfold swapAdj
  cases h1 : l[i]? <;> cases h2 : l[i + 1]? <;> simp

theorem loadSavedCities_cons (src : String) (r : SavedCityRaw) (rest : List SavedCityRaw) :
    ∃ c, loadSavedCities src (r :: rest) = c :: loadSavedCities src rest := by
  cases r
  · exact ⟨_, rfl⟩
  · exact ⟨_, rfl⟩

/-! ## Claim theorems -/

/-- C1: stored sun timestamps are UTC epoch seconds and 12h/24h
rendering is a pure read-time function of the stored epoch: reading
never mutates the stored model, and the fixture with sunrise 06:15 and
sunset 18:45 (24h canonical) renders as "06:15"/"18:45" under 24h and
as "6:15 AM"/"6:45 PM" under 12h — same epochs, two presentations. -/
theorem C1_timeFormat_pure_presentation :
    (∀ (fmt : TimeFormat) (s : SunTimes), (readSun fmt s).2 = s) ∧
    displaySun TimeFormat.h24 fixtureSun = ("06:15", "18:45") ∧
    displaySun TimeFormat.h12 fixtureSun = ("6:15 AM", "6:45 PM") ∧
    (readSun TimeFormat.h24 fixtureSun).2 = (readSun TimeFormat.h12 fixtureSun).2 := by
  refine ⟨fun fmt s => rfl, by decide, by decide, rfl⟩

/-- C2: temperature display uses nearest-integer rounding with halves
rounded up: 25.5 °C renders as "26°", and for every stored temperature
the displayed integer is the floor of t + 1/2, i.e. the unique integer
n with n - 1/2 ≤ t < n + 1/2. -/
theorem C2_roundHalfUp_display :
    displayTemp (51 / 2 : ℚ) = "26°" ∧
    (∀ t : ℚ, roundHalfUp t = ⌊t + 1 / 2⌋) ∧
    (∀ (t : ℚ) (n : ℤ), roundHalfUp t = n ↔ (n : ℚ) - 1 / 2 ≤ t ∧ t < n + 1 / 2) := by
  refine ⟨?_, fun t => rfl, fun t n => ?_⟩
  · unfold displayTemp
    rw [show roundHalfUp (51 / 2 : ℚ) = 26 by unfold roundHalfUp; norm_num]
    rfl
  · unfold roundHalfUp
    rw [Int.floor_eq_iff]
    constructor <;> intro h <;> constructor <;> linarith [h.1, h.2]

/-- C3: drag reorder is a single atomic move, not a swap: dropping the
entry at `i` onto the entry at `j` yields a permutation of the list in
which the dragged entry sits at `j`, every entry strictly between the
two positions (and the target itself) is shifted by exactly one toward
the vacated side, and entries outside the span are untouched; for
[London, Paris], dragging London onto Paris yields [Paris, London]. -/
theorem C3_dragOnto_single_move (l : List String) (i j : Nat)
    (hi : i < l.length) (hj : j < l.length) :
    List.Perm (dragOnto l i j) l ∧
    (dragOnto l i j).length = l.length ∧
    (dragOnto l i j)[j]? = l[i]? ∧
    (∀ k, k < i → k < j → (dragOnto l i j)[k]? = l[k]?) ∧
    (∀ k, i < k → j < k → (dragOnto l i j)[k]? = l[k]?) ∧
    (∀ k, i ≤ k → k < j → (dragOnto l i j)[k]? = l[k + 1]?) ∧
    (∀ k, j < k → k ≤ i → (dragOnto l i j)[k]? = l[k - 1]?) ∧
    dragOnto ["London", "Paris"] 0 1 = ["Paris", "London"] := by
  have hdef : dragOnto l i j = (l.eraseIdx i).insertIdx j l[i] := by
    unfold dragOnto
    rw [List.getElem?_eq_getElem hi]
  have hel : (l.eraseIdx i).length = l.length - 1 := List.length_eraseIdx_of_lt hi
  have hjle : j ≤ (l.eraseIdx i).length := by rw [hel]; omega
  have hlen : (dragOnto l i j).length = l.length := by
    rw [hdef, List.length_insertIdx _ _ hjle, hel]; omega
  refine ⟨?_, hlen, ?_, ?_, ?_, ?_, ?_, rfl⟩
  · rw [hdef]
    exact (insertIdx_perm_cons _ j _ hjle).trans (perm_cons_eraseIdx l i hi).symm
  · rw [hdef, getElem?_insertIdx_self _ _ _ hjle, List.getElem?_eq_getElem hi]
  · intro k hki hkj
    rw [hdef, getElem?_insertIdx_lt _ _ _ _ hkj, List.getElem?_eraseIdx_of_lt _ _ _ hki]
  · intro k hik hjk
    have hksplit : k = j + (k - j - 1) + 1 := by omega
    rw [hdef, hksplit, getElem?_insertIdx_add_succ _ _ _ _ hjle,
      show j + (k - j - 1) = (k - 1) + 0 from by omega,
      List.getElem?_eraseIdx_of_ge _ _ _ (show i ≤ (k - 1) + 0 from by omega),
      show (k - 1) + 0 + 1 = j + (k - j - 1) + 1 from by omega]
  · intro k hik hkj
    rw [hdef, getElem?_insertIdx_lt _ _ _ _ hkj, List.getElem?_eraseIdx_of_ge _ _ _ hik]
  · intro k hjk hki
    have hksplit : k = j + (k - j - 1) + 1 := by omega
    rw [hdef, hksplit, getElem?_insertIdx_add_succ _ _ _ _ hjle,
      show j + (k - j - 1) = k - 1 from by omega,
      List.getElem?_eraseIdx_of_lt _ _ _ (show k - 1 < i from by omega)]
    congr 1

/-- Witness for C3 at the suite's two-city fixture. -/
theorem C3_dragOnto_single_move_witness :
    List.Perm (dragOnto ["London", "Paris"] 0 1) ["London", "Paris"] ∧
    (dragOnto ["London", "Paris"] 0 1)[1]? = (["London", "Paris"] : List String)[0]? ∧
    dragOnto ["London", "Paris"] 0 1 = ["Paris", "London"] := by
  have h := C3_dragOnto_single_move ["London", "Paris"] 0 1 (by decide) (by decide)
  exact ⟨h.1, h.2.2.1, h.2.2.2.2.2.2.2⟩

/-- C4: starting from a list whose `sortIndex` values are a dense
permutation of `0..N-1`, every finite sequence of `reorder(id, newIndex)`
calls — out-of-range targets included — leaves them a dense permutation
of `0..N-1`; moreover `reorder` treats any `newIndex` exactly as its
clamp to `[0, N-1]`. -/
theorem C4_reorder_dense_invariant (s : List SavedLocation) (calls : List (Nat × Nat))
    (hd : denseIndexes s) :
    denseIndexes (applyReorders s calls) ∧
    (∀ (t : List SavedLocation) (cid k : Nat),
      reorder t cid k = reorder t cid (min k (t.length - 1))) := by
  constructor
  · induction calls generalizing s with
    | nil => exact hd
    | cons c rest ih =>
        exact ih (reorder s c.1 c.2) (reorder_dense s c.1 c.2 hd)
  · intro t cid k
    unfold reorder
    simp only [Nat.min_assoc, Nat.min_self]

/-- Witness for C4: a two-city list under an out-of-range reorder
followed by a front move keeps the dense invariant. -/
theorem C4_reorder_dense_invariant_witness :
    denseIndexes [⟨1, "London", 0⟩, ⟨2, "Paris", 1⟩] ∧
    denseIndexes (applyReorders [⟨1, "London", 0⟩, ⟨2, "Paris", 1⟩] [(1, 5), (2, 0)]) :=
  ⟨by decide, (C4_reorder_dense_invariant _ [(1, 5), (2, 0)] (by decide)).1⟩

/-- C5: with a visible suggestion list, ArrowDown advances the
highlighted index by 1 and ArrowUp decreases it by 1, both clamped to
[0, count-1] with no wraparound; at most one suggestion carries the
highlighted/selected flag; and from 3 fresh suggestions two ArrowDowns
highlight index 1 exclusively, after which ArrowUp returns to 0. -/
theorem C5_search_keyboard_navigation :
    (∀ (s : SearchState) (i : Nat), s.highlighted = some i → i < s.count →
      (arrowDown s).highlighted = some (min (i + 1) (s.count - 1))) ∧
    (∀ (s : SearchState) (i : Nat), s.highlighted = some i →
      (arrowUp s).highlighted = some (i - 1)) ∧
    (∀ (s : SearchState) (j k : Nat),
      isHighlighted s j = true → isHighlighted s k = true → j = k) ∧
    (∀ s : SearchState, s.highlighted = some (s.count - 1) → 0 < s.count →
      (arrowDown s).highlighted = some (s.count - 1)) ∧
    (∀ s : SearchState, s.highlighted = some 0 →
      (arrowUp s).highlighted = some 0) ∧
    (arrowDown (arrowDown ⟨3, none⟩)).highlighted = some 1 ∧
    isHighlighted (arrowDown (arrowDown ⟨3, none⟩)) 1 = true ∧
    isHighlighted (arrowDown (arrowDown ⟨3, none⟩)) 0 = false ∧
    (arrowUp (arrowDown (arrowDown ⟨3, none⟩))).highlighted = some 0 := by
  refine ⟨?_, ?_, ?_, ?_, ?_, by decide, by decide, by decide, by decide⟩
  · intro s i hh hc
    unfold arrowDown
    rw [if_neg (by omega), hh]
  · intro s i hh
    unfold arrowUp
    rw [hh]
  · intro s j k hj hk
    have ej := eq_of_beq hj
    have ek := eq_of_beq hk
    rw [ej] at ek
    simpa using ek
  · intro s hh hc
    unfold arrowDown
    rw [if_neg (by omega), hh]
    show some (min (s.count - 1 + 1) (s.count - 1)) = some (s.count - 1)
    congr 1
    omega
  · intro s hh
    unfold arrowUp
    rw [hh]

/-- Witness for C5 at a 3-suggestion state. -/
theorem C5_search_keyboard_navigation_witness :
    (arrowDown ⟨3, some 0⟩).highlighted = some (min (0 + 1) (3 - 1)) ∧
    (arrowUp ⟨3, some 1⟩).highlighted = some (1 - 1) ∧
    (arrowDown ⟨3, some 2⟩).highlighted = some 2 ∧
    (arrowUp ⟨3, some 0⟩).highlighted = some 0 := by
  refine ⟨C5_search_keyboard_navigation.1 ⟨3, some 0⟩ 0 rfl (by decide),
    C5_search_keyboard_navigation.2.1 ⟨3, some 1⟩ 1 rfl,
    ?_, C5_search_keyboard_navigation.2.2.2.2.1 ⟨3, some 0⟩ rfl⟩
  exact C5_search_keyboard_navigation.2.2.2.1 ⟨3, some 2⟩ rfl (by decide)

/-- C6: N concurrent `getWeather` calls for the same key before the
flight settles issue exactly one network fetch, and on completion every
one of the N callers receives the same resolved value or the same
failure. -/
theorem C6_single_flight (n : Nat) (h : 1 ≤ n) (k : String)
    (r : Except FetchError Payload) :
    ((List.replicate n k).foldl flightCall ⟨[], 0⟩).fetches = 1 ∧
    (flightComplete ((List.replicate n k).foldl flightCall ⟨[], 0⟩) k r).2 =
      List.replicate n r := by
  obtain ⟨m, rfl⟩ : ∃ m, n = m + 1 := ⟨n - 1, by omega⟩
  rw [List.replicate_succ, List.foldl_cons]
  have hfirst : flightCall ⟨[], 0⟩ k = ⟨[(k, 1)], 1⟩ := by simp [flightCall]
  rw [hfirst, foldl_flightCall_joins k m 1 1]
  refine ⟨rfl, ?_⟩
  simp [flightComplete, waitersFor, Nat.add_comm 1 m]

/-- Witness for C6: three simultaneous callers, one fetch, one shared
result. -/
theorem C6_single_flight_witness :
    ((List.replicate 3 "owm:London").foldl flightCall ⟨[], 0⟩).fetches = 1 ∧
    (flightComplete ((List.replicate 3 "owm:London").foldl flightCall ⟨[], 0⟩)
        "owm:London" (Except.ok 15)).2 = List.replicate 3 (Except.ok 15) :=
  C6_single_flight 3 (by decide) "owm:London" (Except.ok 15)

/-- C7: an interval of 0 makes every entry stale; a call that finds a
fresh cache entry issues no network fetch; two successive calls whose
times differ by less than the freshness window, the first fetch
succeeding, issue at most one fetch in total; with interval 0 every
call fetches. -/
theorem C7_cache_idempotence :
    (∀ (now fetchedAt : Nat), fresh 0 now fetchedAt = false) ∧
    (∀ (iv now : Nat) (e : CacheEntry) (fr : Except FetchError Payload),
      fresh iv now e.fetchedAtEpoch = true →
      (getWeather iv (some e) now fr).didFetch = false) ∧
    (∀ (iv t1 t2 : Nat) (c : Option CacheEntry) (p : Payload)
      (fr2 : Except FetchError Payload), t2 - t1 < iv * 60 →
      fetchCount (getWeather iv c t1 (Except.ok p)) +
        fetchCount (getWeather iv (getWeather iv c t1 (Except.ok p)).cache t2 fr2) ≤ 1) ∧
    (∀ (c : Option CacheEntry) (now : Nat) (fr : Except FetchError Payload),
      (getWeather 0 c now fr).didFetch = true) := by
  have hfresh0 : ∀ (now fetchedAt : Nat), fresh 0 now fetchedAt = false := by
    intro now fetchedAt
    simp [fresh]
  refine ⟨hfresh0, ?_, ?_, ?_⟩
  · intro iv now e fr hf
    simp [getWeather, hf]
  · intro iv t1 t2 c p fr2 hwin
    match c with
    | none =>
        have hf2 : fresh iv t2 t1 = true := by simp [fresh]; omega
        simp [getWeather, hf2, fetchCount]
    | some e =>
        by_cases hf : fresh iv t1 e.fetchedAtEpoch
        · by_cases hf2 : fresh iv t2 e.fetchedAtEpoch <;> cases fr2 <;>
            simp [getWeather, hf, hf2, fetchCount]
        · have hf2 : fresh iv t2 t1 = true := by simp [fresh]; omega
          simp [getWeather, hf, hf2, fetchCount]
  · intro c now fr
    match c with
    | none => cases fr <;> simp [getWeather]
    | some e => cases fr <;> simp [getWeather, hfresh0]

/-- Witness for C7 at interval 15 min: a fresh hit skips the fetch, a
miss-then-hit pair within the window fetches once. -/
theorem C7_cache_idempotence_witness :
    fresh 0 1000 990 = false ∧
    (getWeather 15 (some ⟨20, 500⟩) 1000 (Except.ok 25)).didFetch = false ∧
    fetchCount (getWeather 15 none 1000 (Except.ok 25)) +
      fetchCount (getWeather 15 (getWeather 15 none 1000 (Except.ok 25)).cache 1400
        (Except.ok 30)) ≤ 1 ∧
    (getWeather 0 (some ⟨20, 1000⟩) 1000 (Except.ok 25)).didFetch = true :=
  ⟨C7_cache_idempotence.1 1000 990,
    C7_cache_idempotence.2.1 15 1000 ⟨20, 500⟩ (Except.ok 25) (by decide),
    C7_cache_idempotence.2.2.1 15 1000 1400 none 25 (Except.ok 30) (by decide),
    C7_cache_idempotence.2.2.2 (some ⟨20, 1000⟩) 1000 (Except.ok 25)⟩

/-- C8: when the fetch fails, the aggregator returns the existing cache
entry for the key flagged stale (the exact cached payload, nothing
fabricated), and propagates the error exactly when no cache entry
exists; a fresh entry is returned unflagged without consulting the
failure at all. -/
theorem C8_stale_fallback :
    (∀ (iv now : Nat) (err : FetchError),
      getWeather iv none now (Except.error err) = ⟨Except.error err, none, true⟩) ∧
    (∀ (iv now : Nat) (e : CacheEntry) (err : FetchError),
      fresh iv now e.fetchedAtEpoch = false →
      getWeather iv (some e) now (Except.error err) =
        ⟨Except.ok (e.payload, true), some e, true⟩) ∧
    (∀ (iv now : Nat) (e : CacheEntry) (err : FetchError),
      fresh iv now e.fetchedAtEpoch = true →
      getWeather iv (some e) now (Except.error err) =
        ⟨Except.ok (e.payload, false), some e, false⟩) ∧
    (∀ (iv now : Nat) (c : Option CacheEntry) (err : FetchError),
      ((getWeather iv c now (Except.error err)).result = Except.error err ↔ c = none)) := by
  refine ⟨?_, ?_, ?_, ?_⟩
  · intro iv now err
    rfl
  · intro iv now e err hf
    simp [getWeather, hf]
  · intro iv now e err hf
    simp [getWeather, hf]
  · intro iv now c err
    match c with
    | none => simp [getWeather]
    | some e =>
        by_cases hf : fresh iv now e.fetchedAtEpoch <;> simp [getWeather, hf]

/-- Witness for C8: empty cache propagates the error, a stale entry is
returned flagged, a fresh entry is served unflagged. -/
theorem C8_stale_fallback_witness :
    getWeather 15 none 1000 (Except.error ⟨FetchErrorKind.network⟩) =
      ⟨Except.error ⟨FetchErrorKind.network⟩, none, true⟩ ∧
    getWeather 15 (some ⟨20, 0⟩) 1000 (Except.error ⟨FetchErrorKind.timeout⟩) =
      ⟨Except.ok ((20 : Payload), true), some ⟨20, 0⟩, true⟩ ∧
    getWeather 15 (some ⟨20, 500⟩) 1000 (Except.error ⟨FetchErrorKind.network⟩) =
      ⟨Except.ok ((20 : Payload), false), some ⟨20, 500⟩, false⟩ ∧
    ((getWeather 15 (some ⟨20, 0⟩) 1000
        (Except.error ⟨FetchErrorKind.network⟩)).result =
      Except.error ⟨FetchErrorKind.network⟩ ↔ (some ⟨20, 0⟩ : Option CacheEntry) = none) :=
  ⟨C8_stale_fallback.1 15 1000 ⟨FetchErrorKind.network⟩,
    C8_stale_fallback.2.1 15 1000 ⟨20, 0⟩ ⟨FetchErrorKind.timeout⟩ (by decide),
    C8_stale_fallback.2.2.1 15 1000 ⟨20, 500⟩ ⟨FetchErrorKind.network⟩ (by decide),
    C8_stale_fallback.2.2.2 15 1000 (some ⟨20, 0⟩) ⟨FetchErrorKind.network⟩⟩

/-- C9: in the settings section list the first section's "move up" is
disabled and the last section's "move down" is disabled — the disabled
moves are no-ops — and since every move step preserves the list length,
after any move the new first element's "move up" and the new last
element's "move down" are again disabled. -/
theorem C9_section_reorder_boundary (l : List String) (i : Nat) (h : 0 < l.length) :
    upDisabled 0 = true ∧
    downDisabled l (l.length - 1) = true ∧
    moveUp l 0 = l ∧
    moveDown l (l.length - 1) = l ∧
    (moveUp l i).length = l.length ∧
    (moveDown l i).length = l.length ∧
    downDisabled (moveUp l i) ((moveUp l i).length - 1) = true ∧
    downDisabled (moveDown l i) ((moveDown l i).length - 1) = true := by
  have hup : ∀ j, (moveUp l j).length = l.length := by
    intro j
    unfold moveUp
    split
    · rfl
    · exact swapAdj_length l (j - 1)
  have hdown : ∀ j, (moveDown l j).length = l.length := by
    intro j
    exact swapAdj_length l j
  have hdd : ∀ m : List String, m.length = l.length →
      downDisabled m (m.length - 1) = true := by
    intro m hm
    unfold downDisabled
    rw [hm]
    simp
    omega
  refine ⟨rfl, hdd l rfl, ?_, ?_, hup i, hdown i, hdd _ (hup i), hdd _ (hdown i)⟩
  · simp [moveUp]
  · unfold moveDown swapAdj
    have h2 : l[(l.length - 1) + 1]? = none := List.getElem?_eq_none (by omega)
    rw [h2]
    cases l[l.length - 1]? <;> rfl

/-- Witness for C9 at a three-section order. -/
theorem C9_section_reorder_boundary_witness :
    upDisabled 0 = true ∧
    downDisabled ["current", "hourly", "daily"] 2 = true ∧
    moveUp ["current", "hourly", "daily"] 0 = ["current", "hourly", "daily"] ∧
    moveDown ["current", "hourly", "daily"] 2 = ["current", "hourly", "daily"] ∧
    downDisabled (moveDown ["current", "hourly", "daily"] 0)
      ((moveDown ["current", "hourly", "daily"] 0).length - 1) = true := by
  have h := C9_section_reorder_boundary ["current", "hourly", "daily"] 0 (by decide)
  exact ⟨h.1, h.2.1, h.2.2.1, h.2.2.2.1, h.2.2.2.2.2.2.2⟩

/-- C10: the persisted savedCities loader accepts both entry shapes:
every entry loads (none is dropped or fails), a bare legacy city-name
string loads as a city resolved by name through the active provider —
its weather fetch addressed by name — and a full location object keeps
its own source and coordinates; the suite's mixed fixture loads both
entries. -/
theorem C10_legacy_savedCities :
    (∀ (src : String) (raw : SavedCityRaw), (loadEntry src raw).isSome = true) ∧
    (∀ (src n : String),
      loadEntry src (SavedCityRaw.legacyName n) =
        some ⟨n, src, FetchKey.byName n⟩) ∧
    (∀ (src n srcF : String) (la lo : ℚ),
      loadEntry src (SavedCityRaw.full n srcF la lo) =
        some ⟨n, srcF, FetchKey.byCoords la lo⟩) ∧
    (∀ (src : String) (raws : List SavedCityRaw),
      (loadSavedCities src raws).length = raws.length) ∧
    loadSavedCities "openweathermap"
        [SavedCityRaw.legacyName "MockCity",
         SavedCityRaw.full "London" "openweathermap" (51.5 : ℚ) (-0.12 : ℚ)] =
      [⟨"MockCity", "openweathermap", FetchKey.byName "MockCity"⟩,
       ⟨"London", "openweathermap", FetchKey.byCoords (51.5 : ℚ) (-0.12 : ℚ)⟩] := by
  refine ⟨?_, fun src n => rfl, fun src n srcF la lo => rfl, ?_, rfl⟩
  · intro src raw
    cases raw <;> rfl
  · intro src raws
    induction raws with
    | nil => rfl
    | cons r rest ih =>
        obtain ⟨c, hc⟩ := loadSavedCities_cons src r rest
        rw [hc, List.length_cons, List.length_cons, ih]

end WeatherApp
